import Mathlib

/-!
Shallow embedding of the service worker of the Amino Gym PWA
(`public/sw.js`-style worker source): cache storage, request
classification, the two caching strategies, the install/activate
lifecycle handlers and the push handler, together with proofs of the
behavioural properties stated about them.

Conventions of the embedding:
- Cache storage is an association list of namespaces in creation order,
  each namespace an association list of (url-key, response) entries.
- A network fetch is passed in as its outcome (`FetchOutcome`): either a
  settled response or a transport-level rejection.
- Asynchronous background work (the stale-revalidation refetch of the
  Cache-First strategy) is split out of the foreground function: the
  foreground result records whether a refetch was issued, and
  `backgroundUpdate` applies the refetch completion to the storage.
- JS `Date` parsing of a header string is an abstract parameter
  `dateParse : String → Option Int` (`none` models an invalid date, whose
  NaN arithmetic makes every comparison false).
-/

namespace SW

/-- A settled HTTP response as the worker observes it: ok flag, status,
body, and the value of its "date" header when present. -/
structure Response where
  ok : Bool
  status : Nat
  body : String
  dateHeader : Option String
  deriving DecidableEq, Repr

/-- Outcome of a network fetch: a settled response (of any status), or a
transport-level rejection (offline, DNS failure, timeout). -/
inductive FetchOutcome where
  | success (r : Response)
  | failure
  deriving DecidableEq, Repr

/-- True when the fetch settled with an ok-status response; this is the
condition `cache.addAll` requires of every fetched resource. -/
def FetchOutcome.isOkResp : FetchOutcome → Bool
  | .success r => r.ok
  | .failure => false

/-- An intercepted request, carrying the fields the worker consults:
method, url (the cache key), pathname, destination, and mode. -/
structure Request where
  method : String
  url : String
  pathname : String
  destination : String
  mode : String
  deriving DecidableEq, Repr

/-- One cache namespace's contents: entries keyed by url. -/
abbrev Entries := List (String × Response)

/-- The whole CacheStorage: namespaces in creation order. -/
abbrev CacheStorage := List (String × Entries)

/-- Overwrite-or-append a keyed entry in one namespace's entry list
(`Cache.put` semantics: at most one entry per key, writes overwrite). -/
def putKey : Entries → String → Response → Entries
  | [], k, r => [(k, r)]
  | (k', r') :: rest, k, r =>
      if k' = k then (k, r) :: rest else (k', r') :: putKey rest k r

/-- Lookup of a key in one namespace's entry list. -/
def getKey : Entries → String → Option Response
  | [], _ => none
  | (k', r') :: rest, k => if k' = k then some r' else getKey rest k

/-- The namespace names currently present, in creation order
(`caches.keys()`). -/
def cacheKeys (st : CacheStorage) : List String :=
  st.map Prod.fst

/-- Open a namespace: create it empty if absent, otherwise leave the
storage unchanged (`caches.open` is idempotent). -/
def opencache (st : CacheStorage) (name : String) : CacheStorage :=
  if (cacheKeys st).contains name then st else st ++ [(name, [])]

/-- Write an entry into the named namespace (no-op on namespaces that do
not exist; callers always open first). -/
def putEntry (st : CacheStorage) (name : String) (k : String) (r : Response) :
    CacheStorage :=
  st.map (fun c => if c.1 = name then (c.1, putKey c.2 k r) else c)

/-- Delete a namespace outright (`caches.delete`). -/
def deleteCache (st : CacheStorage) (name : String) : CacheStorage :=
  st.filter (fun c => c.1 ≠ name)

/-- Lookup of a key inside one named namespace (the first namespace of
that name, though at most one ever exists). -/
def matchIn : CacheStorage → String → String → Option Response
  | [], _, _ => none
  | c :: rest, name, k => if c.1 = name then getKey c.2 k else matchIn rest name k

/-- The global `caches.match(k)`: search every namespace in creation
order and return the first entry found under the key. -/
def matchAll : CacheStorage → String → Option Response
  | [], _ => none
  | c :: rest, k =>
      match getKey c.2 k with
      | some r => some r
      | none => matchAll rest k

/-! Namespace-name constants of this worker version. -/

def CACHE_NAME : String := "amino-gym-v2"
def STATIC_CACHE : String := "amino-gym-static-v2"
def DYNAMIC_CACHE : String := "amino-gym-dynamic-v2"
def IMAGE_CACHE : String := "amino-gym-images-v2"

/-- The allow-list the activate handler keeps:
`[CACHE_NAME, STATIC_CACHE, DYNAMIC_CACHE, IMAGE_CACHE]`. -/
def allowList : List String :=
  [CACHE_NAME, STATIC_CACHE, DYNAMIC_CACHE, IMAGE_CACHE]

/-! The pre-cache manifest of the install handler. -/

def CRITICAL_RESOURCES : List String :=
  ["/", "/home", "/login", "/yacin-gym-logo.png", "/success-sound.mp3"]

def STATIC_ASSETS : List String := ["/manifest.json"]

/-! The fetch listener's dispatch. -/

/-- The strategy a dispatched request is handled by. -/
inductive StrategyKind where
  | networkFirst
  | cacheFirst
  deriving DecidableEq, Repr

/-- The resource classes of the specification's classifier. -/
inductive ResourceClass where
  | API
  | Image
  | StaticAsset
  | Document
  deriving DecidableEq, Repr

/-- The JS `String.prototype.startsWith` test, on the character lists of
the strings so that it evaluates by kernel reduction. -/
def startsWithStr (s pre : String) : Bool :=
  pre.data.isPrefixOf s.data

/-- The JS `String.prototype.endsWith` test, on the character lists. -/
def endsWithStr (s suf : String) : Bool :=
  suf.data.isSuffixOf s.data

/-- Whether a pathname matches the static-asset suffix test
`/\.(js|css|woff2?)$/`. -/
def staticSuffix (p : String) : Bool :=
  endsWithStr p ".js" || endsWithStr p ".css" ||
    endsWithStr p ".woff" || endsWithStr p ".woff2"

/-- The fetch listener's dispatch: `none` means the listener returns
without calling `respondWith` (non-GET requests pass through untouched);
otherwise the chosen strategy and the namespace it is given. -/
def fetchDispatch (req : Request) : Option (StrategyKind × String) :=
  if req.method ≠ "GET" then none
  else if startsWithStr req.pathname "/api/" then some (.networkFirst, DYNAMIC_CACHE)
  else if req.destination = "image" then some (.cacheFirst, IMAGE_CACHE)
  else if staticSuffix req.pathname then some (.cacheFirst, STATIC_CACHE)
  else some (.networkFirst, CACHE_NAME)

/-- The classifier induced by the dispatch: which resource class a GET
request falls into (none for non-GET). -/
def classify (req : Request) : Option ResourceClass :=
  if req.method ≠ "GET" then none
  else if startsWithStr req.pathname "/api/" then some .API
  else if req.destination = "image" then some .Image
  else if staticSuffix req.pathname then some .StaticAsset
  else some .Document

/-! The Network-First strategy. -/

/-- What `networkFirstStrategy` hands back through its promise: a
response, the JS value `undefined` (possible because the navigation
fallback returns the truthy promise `caches.match("/")` itself, so the
`new Response("Offline", 503)` alternative is unreachable and an empty
match resolves to undefined), or a rethrown error. -/
inductive NFResult where
  | resp (r : Response)
  | undef
  | thrown
  deriving DecidableEq, Repr

/-- The Network-First strategy. Mirrors `networkFirstStrategy(request,
cacheName)`: try the network; on an ok response, put a clone into
`cacheName` and return it; on a non-ok response, return it unstored; on
a transport failure, fall back to the global `caches.match(request)`,
then for navigations to the expression
`caches.match("/") || new Response("Offline", 503)` — whose left operand
is a Promise object and hence always truthy, so the function returns
that promise's value (possibly undefined) and never the 503 — and
otherwise rethrow. -/
def networkFirstStrategy (st : CacheStorage) (req : Request)
    (cacheName : String) (net : FetchOutcome) : CacheStorage × NFResult :=
  match net with
  | .success r =>
      if r.ok then
        (putEntry (opencache st cacheName) cacheName req.url r, .resp r)
      else
        (st, .resp r)
  | .failure =>
      match matchAll st req.url with
      | some cached => (st, .resp cached)
      | none =>
          if req.mode = "navigate" then
            match matchAll st "/" with
            | some rootCached => (st, .resp rootCached)
            | none => (st, .undef)
          else
            (st, .thrown)

/-! The Cache-First strategy. -/

/-- One hour in milliseconds, the freshness window. -/
def oneHour : Int := 60 * 60 * 1000

/-- The timestamp `new Date(cachedResponse.headers.get("date") || 0)`
assigns to a cached response: a missing or empty header falls to the
epoch (0); a present header is parsed, `none` standing for an invalid
date (NaN). -/
def cacheDateMs (r : Response) (dateParse : String → Option Int) : Option Int :=
  match r.dateHeader with
  | none => some 0
  | some s => if s = "" then some 0 else dateParse s

/-- The staleness test `now - cacheDate > oneHour`; with an invalid date
the NaN comparison is false. -/
def isStale (r : Response) (now : Int) (dateParse : String → Option Int) : Bool :=
  match cacheDateMs r dateParse with
  | some t => now - t > oneHour
  | none => false

/-- What the Cache-First foreground call hands back: a response or a
rethrown error. -/
inductive CFResult where
  | resp (r : Response)
  | thrown
  deriving DecidableEq, Repr

/-- Result of the Cache-First foreground call: the storage as the
foreground left it, the value returned to the caller, and whether a
background refetch was issued (fire-and-forget; its completion is
applied by `backgroundUpdate`). -/
structure CFOutcome where
  state : CacheStorage
  result : CFResult
  background : Bool
  deriving DecidableEq, Repr

/-- The Cache-First strategy's foreground path. Mirrors
`cacheFirstStrategy(request, cacheName)`: on a global cache hit, return
the cached response immediately, issuing a background refetch when it is
more than one hour stale; on a miss, go to the network, store an
ok response into `cacheName` and return it, return a non-ok response
unstored, and rethrow a transport failure. -/
def cacheFirstStrategy (st : CacheStorage) (req : Request) (cacheName : String)
    (now : Int) (dateParse : String → Option Int) (net : FetchOutcome) :
    CFOutcome :=
  match matchAll st req.url with
  | some cached =>
      { state := st, result := .resp cached,
        background := isStale cached now dateParse }
  | none =>
      match net with
      | .success r =>
          if r.ok then
            { state := putEntry (opencache st cacheName) cacheName req.url r,
              result := .resp r, background := false }
          else
            { state := st, result := .resp r, background := false }
      | .failure => { state := st, result := .thrown, background := false }

/-- Completion of the Cache-First background refetch: an ok response
overwrites the cache entry in `cacheName`; a non-ok response or a
rejection is silently discarded. -/
def backgroundUpdate (st : CacheStorage) (req : Request) (cacheName : String)
    (net : FetchOutcome) : CacheStorage :=
  match net with
  | .success r =>
      if r.ok then putEntry (opencache st cacheName) cacheName req.url r else st
  | .failure => st

/-! The install handler. -/

/-- Write every url's fetched response into the named namespace, in list
order. -/
def putAll (st : CacheStorage) (name : String) (urls : List String)
    (fetchFn : String → FetchOutcome) : CacheStorage :=
  urls.foldl (fun acc u =>
    match fetchFn u with
    | .success r => putEntry acc name u r
    | .failure => acc) st

/-- One `caches.open(name).then(cache => cache.addAll(urls))` step: the
namespace is created by the open; the batch add is atomic — if every url
fetches to an ok response all entries are written and the step succeeds,
otherwise nothing is written and the step fails. -/
def addAllStep (st : CacheStorage) (name : String) (urls : List String)
    (fetchFn : String → FetchOutcome) : CacheStorage × Bool :=
  let opened := opencache st name
  if urls.all (fun u => (fetchFn u).isOkResp) then
    (putAll opened name urls fetchFn, true)
  else
    (opened, false)

/-- The install handler: `Promise.all` of adding the critical resources
to `CACHE_NAME` and the static assets to `STATIC_CACHE`; the install
succeeds only when both batch adds do. -/
def installHandler (st : CacheStorage) (fetchFn : String → FetchOutcome) :
    CacheStorage × Bool :=
  let p1 := addAllStep st CACHE_NAME CRITICAL_RESOURCES fetchFn
  let p2 := addAllStep p1.1 STATIC_CACHE STATIC_ASSETS fetchFn
  (p2.1, p1.2 && p2.2)

/-! The activate handler. -/

/-- The activate handler's cleanup pass: enumerate `caches.keys()` and
delete every namespace whose name the allow-list does not include. -/
def activateHandler (st : CacheStorage) : CacheStorage :=
  (cacheKeys st).foldl
    (fun acc name =>
      if allowList.contains name then acc else deleteCache acc name)
    st

/-! The push handler. -/

/-- The parsed-JSON shape of a push payload: each recognized field
present or absent (`{...notificationData, ...event.data.json()}` merges
the present ones over the defaults). -/
structure PushJson where
  title : Option String
  body : Option String
  icon : Option String
  badge : Option String
  url : Option String
  deriving DecidableEq, Repr

/-- A push event's data: absent, parsed as JSON, or unparseable text
(`event.data.json()` threw and `event.data.text()` gave the raw text). -/
inductive PushData where
  | noData
  | jsonData (j : PushJson)
  | textData (s : String)
  deriving DecidableEq, Repr

/-- The notification data record with the handler's defaults. -/
structure NotificationData where
  title : String
  body : String
  icon : String
  badge : String
  url : Option String
  deriving DecidableEq, Repr

def defaultNotification : NotificationData :=
  { title := "Amino Gym"
    body := "إشعار من Amino Gym"
    icon := "/yacin-gym-logo.png"
    badge := "/yacin-gym-logo.png"
    url := none }

/-- The merge step of the push handler: JSON fields override the
defaults; a parse failure replaces only the body with the raw text; no
data leaves the defaults. -/
def mergePush : PushData → NotificationData
  | .noData => defaultNotification
  | .jsonData j =>
      { title := j.title.getD defaultNotification.title
        body := j.body.getD defaultNotification.body
        icon := j.icon.getD defaultNotification.icon
        badge := j.badge.getD defaultNotification.badge
        url := j.url }
  | .textData s => { defaultNotification with body := s }

/-- The options record passed to `showNotification`: body, icon, badge
and the data url (`notificationData.url || "/"`). -/
structure NotificationOptions where
  body : String
  icon : String
  badge : String
  url : String
  deriving DecidableEq, Repr

/-- The push handler: always calls `showNotification(title, options)`;
its argument pair is this function's value. -/
def pushHandler (d : PushData) : String × NotificationOptions :=
  let nd := mergePush d
  (nd.title,
    { body := nd.body, icon := nd.icon, badge := nd.badge,
      url := nd.url.getD "/" })

/-! Concrete fixtures used by counterexamples and witnesses. -/

/-- A generic ok response with no date header. -/
def okResp : Response := { ok := true, status := 200, body := "ok", dateHeader := none }

/-- A non-ok response. -/
def badResp : Response := { ok := false, status := 500, body := "err", dateHeader := none }

/-- A fetch environment in which every url succeeds with `okResp`. -/
def allOkFetch : String → FetchOutcome := fun _ => .success okResp

/-- A fetch environment in which the logo fetch rejects. -/
def logoFailFetch : String → FetchOutcome := fun u =>
  if u = "/yacin-gym-logo.png" then .failure else .success okResp

/-- A GET navigation request for a page. -/
def reqNav : Request :=
  { method := "GET", url := "/offers", pathname := "/offers",
    destination := "document", mode := "navigate" }

/-- A GET API request whose path also ends in a static-asset suffix. -/
def reqApiJs : Request :=
  { method := "GET", url := "/api/data.js", pathname := "/api/data.js",
    destination := "", mode := "cors" }

/-- A GET image request. -/
def reqImg : Request :=
  { method := "GET", url := "/pic.png", pathname := "/pic.png",
    destination := "image", mode := "no-cors" }

/-- A GET request for a script file. -/
def reqScript : Request :=
  { method := "GET", url := "/main.js", pathname := "/main.js",
    destination := "script", mode := "no-cors" }

/-- A non-navigation GET document-class request. -/
def reqData : Request :=
  { method := "GET", url := "/data", pathname := "/data",
    destination := "", mode := "cors" }

/-- Storage holding `reqData`'s url only in the static namespace, not in
the primary one the Network-First strategy is called with. -/
def stOther : CacheStorage :=
  [(CACHE_NAME, []), (STATIC_CACHE, [("/data", okResp)])]

/-- Storage holding only the primary namespace and one stale namespace:
an input on which activation cannot produce all four namespaces. -/
def stOldCaches : CacheStorage :=
  [(CACHE_NAME, []), ("amino-gym-v1", [("/", okResp)])]

/-- Storage with one image entry carrying no date header. -/
def stImgNoDate : CacheStorage :=
  [(IMAGE_CACHE, [("/pic.png", okResp)])]

end SW

namespace SW

/-! Helper lemmas about the cache-storage model. -/

theorem getKey_putKey_self (es : Entries) (k : String) (r : Response) :
    getKey (putKey es k r) k = some r := by
  induction es with
  | nil => simp [putKey, getKey]
  | cons e rest ih =>
      obtain ⟨k0, r0⟩ := e
      by_cases h : k0 = k
      · simp [putKey, h, getKey]
      · simp [putKey, h, getKey, ih]

theorem getKey_putKey_ne (es : Entries) (k k1 : String) (r : Response)
    (h : k1 ≠ k) : getKey (putKey es k r) k1 = getKey es k1 := by
  have hne : ¬(k = k1) := fun hh => h hh.symm
  induction es with
  | nil => simp [putKey, getKey, hne]
  | cons e rest ih =>
      obtain ⟨k0, r0⟩ := e
      by_cases h0 : k0 = k
      · subst h0
        simp [putKey, getKey, hne]
      · simp [putKey, h0, getKey, ih]

theorem cacheKeys_putEntry (st : CacheStorage) (name k : String) (r : Response) :
    cacheKeys (putEntry st name k r) = cacheKeys st := by
  induction st with
  | nil => rfl
  | cons c rest ih =>
      by_cases h : c.1 = name <;>
        simpa [putEntry, cacheKeys, h] using congrArg (c.1 :: ·) ih

theorem opencache_eq (st : CacheStorage) (name : String) :
    opencache st name = if name ∈ cacheKeys st then st else st ++ [(name, [])] := by
  unfold opencache
  by_cases h : name ∈ cacheKeys st
  · simp [h, (by simpa using h : (cacheKeys st).contains name = true)]
  · have hc : ¬((cacheKeys st).contains name = true) := fun hh => h (by simpa using hh)
    simp [h, hc]

theorem mem_cacheKeys_opencache (st : CacheStorage) (name : String) :
    name ∈ cacheKeys (opencache st name) := by
  rw [opencache_eq]
  by_cases h : name ∈ cacheKeys st
  · rw [if_pos h]; exact h
  · have hk : cacheKeys (st ++ [(name, [])]) = cacheKeys st ++ [name] := by
      simp [cacheKeys]
    rw [if_neg h, hk]
    exact List.mem_append_right _ (List.mem_singleton.mpr rfl)

theorem matchIn_putEntry_self (st : CacheStorage) (name k : String) (r : Response)
    (h : name ∈ cacheKeys st) :
    matchIn (putEntry st name k r) name k = some r := by
  induction st with
  | nil => simp [cacheKeys] at h
  | cons c rest ih =>
      by_cases hc : c.1 = name
      · simp [putEntry, matchIn, hc, getKey_putKey_self]
      · have hm : name ∈ cacheKeys rest := by
          rcases List.mem_cons.mp h with h1 | h1
          · exact absurd h1.symm hc
          · exact h1
        have ih2 := ih hm
        simp only [putEntry] at ih2 ⊢
        simp [matchIn, hc, ih2]

theorem matchIn_putEntry_ne_key (st : CacheStorage) (name k k1 : String)
    (r : Response) (h : k1 ≠ k) :
    matchIn (putEntry st name k r) name k1 = matchIn st name k1 := by
  induction st with
  | nil => simp [putEntry, matchIn]
  | cons c rest ih =>
      simp only [putEntry] at ih ⊢
      by_cases hc : c.1 = name
      · simp [matchIn, hc, getKey_putKey_ne _ _ _ _ h, ih]
      · simp [matchIn, hc, ih]

theorem matchIn_putEntry_ne_name (st : CacheStorage) (name name1 k k1 : String)
    (r : Response) (h : name1 ≠ name) :
    matchIn (putEntry st name k r) name1 k1 = matchIn st name1 k1 := by
  induction st with
  | nil => simp [putEntry, matchIn]
  | cons c rest ih =>
      simp only [putEntry] at ih ⊢
      by_cases hc : c.1 = name
      · have hne : ¬(name = name1) := fun hh => h hh.symm
        simp [matchIn, hc, hne, ih]
      · by_cases hc1 : c.1 = name1 <;> simp [matchIn, hc, hc1, h, ih]

theorem opencache_of_mem (st : CacheStorage) (name : String)
    (h : name ∈ cacheKeys st) : opencache st name = st := by
  rw [opencache_eq, if_pos h]

theorem matchIn_append_single_ne (st : CacheStorage) (name name1 k : String)
    (es : Entries) (h : name1 ≠ name) :
    matchIn (st ++ [(name, es)]) name1 k = matchIn st name1 k := by
  have hne : ¬(name = name1) := fun hh => h hh.symm
  induction st with
  | nil => simp [matchIn, hne]
  | cons c rest ih =>
      by_cases hc : c.1 = name1 <;> simp [matchIn, hc, ih]

theorem matchIn_opencache_ne (st : CacheStorage) (name name1 k : String)
    (h : name1 ≠ name) :
    matchIn (opencache st name) name1 k = matchIn st name1 k := by
  rw [opencache_eq]
  by_cases hm : name ∈ cacheKeys st
  · rw [if_pos hm]
  · rw [if_neg hm]
    exact matchIn_append_single_ne st name name1 k [] h

theorem matchIn_absent (st : CacheStorage) (name k : String)
    (h : name ∉ cacheKeys st) :
    matchIn st name k = none := by
  induction st with
  | nil => simp [matchIn]
  | cons c rest ih =>
      have hcne : ¬(c.1 = name) := by
        intro hh; exact h (by simp [cacheKeys, hh])
      have hrest : name ∉ cacheKeys rest := by
        intro hh; exact h (by simp [cacheKeys] at hh ⊢; exact Or.inr hh)
      simp [matchIn, hcne, ih hrest]

theorem matchIn_append_single_absent (st : CacheStorage) (name k : String)
    (es : Entries) (h : name ∉ cacheKeys st) :
    matchIn (st ++ [(name, es)]) name k = getKey es k := by
  induction st with
  | nil => simp [matchIn]
  | cons c rest ih =>
      have hcne : ¬(c.1 = name) := by
        intro hh; exact h (by simp [cacheKeys, hh])
      have hrest : name ∉ cacheKeys rest := by
        intro hh; exact h (by simp [cacheKeys] at hh ⊢; exact Or.inr hh)
      simp [matchIn, hcne, ih hrest]

theorem matchIn_opencache_absent (st : CacheStorage) (name k : String)
    (h : name ∉ cacheKeys st) :
    matchIn (opencache st name) name k = none := by
  rw [opencache_eq, if_neg h, matchIn_append_single_absent st name k [] h]
  rfl

theorem cacheKeys_putAll (urls : List String) (st : CacheStorage)
    (name : String) (f : String → FetchOutcome) :
    cacheKeys (putAll st name urls f) = cacheKeys st := by
  induction urls generalizing st with
  | nil => rfl
  | cons u us ih =>
      simp only [putAll, List.foldl_cons]
      split
      · rename_i r hf
        have ihr := ih (putEntry st name u r)
        simp only [putAll] at ihr
        rw [ihr, cacheKeys_putEntry]
      · have ihr := ih st
        simp only [putAll] at ihr
        exact ihr

theorem matchIn_putAll_ne_name (urls : List String) (st : CacheStorage)
    (name name1 k : String) (f : String → FetchOutcome) (h : name1 ≠ name) :
    matchIn (putAll st name urls f) name1 k = matchIn st name1 k := by
  induction urls generalizing st with
  | nil => rfl
  | cons u us ih =>
      simp only [putAll, List.foldl_cons]
      split
      · rename_i r hf
        have ihr := ih (putEntry st name u r)
        simp only [putAll] at ihr
        rw [ihr, matchIn_putEntry_ne_name st name name1 u k r h]
      · have ihr := ih st
        simp only [putAll] at ihr
        exact ihr

theorem matchIn_putAll_isSome (urls : List String) (st : CacheStorage)
    (name k : String) (f : String → FetchOutcome)
    (hok : ∀ u ∈ urls, (f u).isOkResp = true)
    (hmem : name ∈ cacheKeys st) :
    ((matchIn (putAll st name urls f) name k).isSome = true ↔
      (k ∈ urls ∨ (matchIn st name k).isSome = true)) := by
  induction urls generalizing st with
  | nil => simp [putAll]
  | cons u us ih =>
      have hu : (f u).isOkResp = true := hok u (List.mem_cons_self u us)
      simp only [putAll, List.foldl_cons]
      split
      · rename_i r hf
        have hmem2 : name ∈ cacheKeys (putEntry st name u r) := by
          rw [cacheKeys_putEntry]; exact hmem
        have ihs := ih (putEntry st name u r)
          (fun v hv => hok v (List.mem_cons_of_mem _ hv)) hmem2
        simp only [putAll] at ihs
        rw [ihs]
        by_cases hk : k = u
        · subst hk
          simp [matchIn_putEntry_self st name k r hmem]
        · rw [matchIn_putEntry_ne_key st name u k r hk]
          simp [List.mem_cons, hk]
      · rename_i hf
        rw [hf] at hu
        simp [FetchOutcome.isOkResp] at hu

theorem cacheKeys_addAllStep (st : CacheStorage) (name : String)
    (urls : List String) (f : String → FetchOutcome) :
    cacheKeys (addAllStep st name urls f).1 = cacheKeys (opencache st name) := by
  unfold addAllStep
  by_cases h : urls.all (fun u => (f u).isOkResp) = true
  · simp only [h, if_pos]
    exact cacheKeys_putAll urls (opencache st name) name f
  · simp [h]

theorem matchIn_addAllStep_ne (st : CacheStorage) (name name1 : String)
    (urls : List String) (k : String) (f : String → FetchOutcome)
    (h : name1 ≠ name) :
    matchIn (addAllStep st name urls f).1 name1 k = matchIn st name1 k := by
  unfold addAllStep
  by_cases hall : urls.all (fun u => (f u).isOkResp) = true
  · simp only [hall, if_pos]
    rw [matchIn_putAll_ne_name urls (opencache st name) name name1 k f h]
    exact matchIn_opencache_ne st name name1 k h
  · simp only [hall, if_neg, Bool.false_eq_true]
    exact matchIn_opencache_ne st name name1 k h

theorem activate_fold (names : List String) (acc : CacheStorage) :
    names.foldl
      (fun acc name => if allowList.contains name then acc else deleteCache acc name)
      acc
    = acc.filter (fun c => allowList.contains c.1 || !(names.contains c.1)) := by
  induction names generalizing acc with
  | nil =>
      symm
      apply List.filter_eq_self.mpr
      intro a _
      simp
  | cons n ns ih =>
      simp only [List.foldl_cons]
      by_cases hn : allowList.contains n = true
      · have hn2 : n ∈ allowList := by simpa using hn
        rw [if_pos hn, ih]
        apply List.filter_congr
        intro c _
        by_cases hc : c.1 = n
        · simp [hc, hn2]
        · simp [hc]
      · have hn2 : n ∉ allowList := fun hm => hn (by simpa using hm)
        rw [if_neg hn, ih]
        unfold deleteCache
        rw [List.filter_filter]
        apply List.filter_congr
        intro c _
        by_cases hc : c.1 = n
        · simp [hc, hn2]
        · simp [hc]

theorem activate_eq_filter (st : CacheStorage) :
    activateHandler st = st.filter (fun c => allowList.contains c.1) := by
  unfold activateHandler
  rw [activate_fold]
  apply List.filter_congr
  intro c hcmem
  have hmem : c.1 ∈ cacheKeys st := List.mem_map_of_mem Prod.fst hcmem
  simp [hmem]

/-! Claim theorems. -/

/-- C1: the claim says a Network-First navigation request with a
transport failure and no matching cache entry yields the cached root
entry or else a synthesized 503 "Offline" response. The code's fallback
expression returns the always-truthy promise of the root lookup, so when
the root path is not cached either, the caller receives undefined and
the 503 response is dead code: evaluated at such an input (empty cache
storage, navigation request, network down), the strategy yields
`NFResult.undef`, not a 503 response. -/
theorem nf_offline_navigation_yields_undefined :
    networkFirstStrategy [] reqNav CACHE_NAME .failure = ([], .undef) ∧
    (∀ r : Response, (networkFirstStrategy [] reqNav CACHE_NAME .failure).2 ≠ .resp r) := by
  constructor
  · rfl
  · intro r h
    exact NFResult.noConfusion (by simpa using h)

/-- C3 counterexample: a state whose only entry for the request key
lives in the static namespace, while the strategy is called with the
primary namespace. The lookup confined to the passed namespace finds
nothing, yet the strategy still returns the entry from the other
namespace — so the claim that the fallback lookup happens in the passed
namespace only is false at this input. -/
theorem nf_fallback_other_namespace_counterexample :
    matchIn stOther CACHE_NAME reqData.url = none ∧
    networkFirstStrategy stOther reqData CACHE_NAME .failure =
      (stOther, .resp okResp) := by
  constructor <;> rfl

/-- C3 (amended): on a transport failure the Network-First strategy
consults the global cache match across all namespaces in creation order,
and returns the first entry found under the request key in any
namespace, leaving the storage unchanged. -/
theorem nf_fallback_global_match (st : CacheStorage) (req : Request)
    (cn : String) (c : Response) (hc : matchAll st req.url = some c) :
    networkFirstStrategy st req cn .failure = (st, .resp c) := by
  simp [networkFirstStrategy, hc]

/-- Witness for the amended C3 theorem at a concrete input. -/
theorem nf_fallback_global_match_witness :
    networkFirstStrategy stOther reqData STATIC_CACHE .failure =
      (stOther, .resp okResp) :=
  nf_fallback_global_match stOther reqData STATIC_CACHE okResp (by rfl)

/-- C4: for a request the fetch listener dispatches to Network-First
(API or Document class), an ok network response is stored in the passed
namespace under the request key in the same step that returns it, and a
non-ok response is returned with the storage untouched. -/
theorem nf_stores_ok_responses (st : CacheStorage) (req : Request)
    (cn : String) (r : Response)
    (hdisp : fetchDispatch req = some (.networkFirst, cn)) :
    (r.ok = true →
      networkFirstStrategy st req cn (.success r) =
        (putEntry (opencache st cn) cn req.url r, .resp r) ∧
      matchIn (networkFirstStrategy st req cn (.success r)).1 cn req.url = some r) ∧
    (r.ok = false →
      networkFirstStrategy st req cn (.success r) = (st, .resp r)) := by
  constructor
  · intro hok
    constructor
    · simp [networkFirstStrategy, hok]
    · simp only [networkFirstStrategy, hok, if_pos]
      exact matchIn_putEntry_self _ cn req.url r (mem_cacheKeys_opencache st cn)
  · intro hok
    simp [networkFirstStrategy, hok]

/-- Witness for C4 at a concrete API request. -/
theorem nf_stores_ok_responses_witness :
    matchIn (networkFirstStrategy [] reqApiJs DYNAMIC_CACHE (.success okResp)).1
      DYNAMIC_CACHE reqApiJs.url = some okResp :=
  ((nf_stores_ok_responses [] reqApiJs DYNAMIC_CACHE okResp (by decide)).1 rfl).2

/-- C9: neither strategy mutates any cache namespace when the network
fetch rejects or settles with a non-ok response: the storage component
of every such execution, including the Cache-First background refetch
completion, equals the input storage. -/
theorem cache_writes_guarded_by_ok (st : CacheStorage) (req : Request)
    (cn : String) (now : Int) (dp : String → Option Int) :
    ((networkFirstStrategy st req cn .failure).1 = st) ∧
    (∀ r : Response, r.ok = false →
      (networkFirstStrategy st req cn (.success r)).1 = st) ∧
    ((cacheFirstStrategy st req cn now dp .failure).state = st) ∧
    (∀ r : Response, r.ok = false →
      (cacheFirstStrategy st req cn now dp (.success r)).state = st) ∧
    (backgroundUpdate st req cn .failure = st) ∧
    (∀ r : Response, r.ok = false →
      backgroundUpdate st req cn (.success r) = st) := by
  refine ⟨?_, ?_, ?_, ?_, ?_, ?_⟩
  · unfold networkFirstStrategy
    cases h : matchAll st req.url with
    | some c => simp
    | none =>
        by_cases hm : req.mode = "navigate"
        · cases h2 : matchAll st "/" <;> simp [hm, h2]
        · simp [hm]
  · intro r hok
    simp [networkFirstStrategy, hok]
  · unfold cacheFirstStrategy
    cases h : matchAll st req.url <;> simp
  · intro r hok
    unfold cacheFirstStrategy
    cases h : matchAll st req.url <;> simp [hok]
  · rfl
  · intro r hok
    simp [backgroundUpdate, hok]

/-- Witness for C9: a non-ok background refetch completion leaves the
storage unchanged. -/
theorem cache_writes_guarded_by_ok_witness :
    backgroundUpdate stImgNoDate reqImg IMAGE_CACHE (.success badResp) =
      stImgNoDate :=
  (cache_writes_guarded_by_ok stImgNoDate reqImg IMAGE_CACHE 0
    (fun _ => none)).2.2.2.2.2 badResp rfl

/-- C10: a cached response with no "date" header gets the epoch as its
timestamp, so whenever the current time exceeds the one-hour window it
is judged stale on every hit: the entry is still returned unchanged and
a background refetch is issued. -/
theorem cf_missing_date_header_always_stale (st : CacheStorage)
    (req : Request) (cn : String) (now : Int) (dp : String → Option Int)
    (net : FetchOutcome) (c : Response) (hc : matchAll st req.url = some c)
    (hd : c.dateHeader = none) (hnow : oneHour < now) :
    cacheFirstStrategy st req cn now dp net =
      { state := st, result := .resp c, background := true } := by
  have hstale : isStale c now dp = true := by
    simp only [isStale, cacheDateMs, hd]
    simp only [decide_eq_true_eq]
    omega
  simp [cacheFirstStrategy, hc, hstale]

/-- Witness for C10 at a concrete image entry without a date header. -/
theorem cf_missing_date_header_always_stale_witness :
    cacheFirstStrategy stImgNoDate reqImg IMAGE_CACHE 7200000
      (fun _ => none) .failure =
      { state := stImgNoDate, result := .resp okResp, background := true } :=
  cf_missing_date_header_always_stale stImgNoDate reqImg IMAGE_CACHE 7200000
    (fun _ => none) .failure okResp (by rfl) rfl (by decide)

/-- C5: classification is total on GET requests and applies its rules
in priority order: non-GET requests bypass the engine with no dispatch;
the API path prefix wins over every later rule (in particular over a
static-asset suffix); then the image destination; then the static-asset
suffixes; every remaining GET request is a Document — and each class is
paired with its strategy and namespace. -/
theorem classify_total_priority (req : Request) :
    (req.method ≠ "GET" → fetchDispatch req = none ∧ classify req = none) ∧
    (req.method = "GET" → ∃ c, classify req = some c) ∧
    (req.method = "GET" → startsWithStr req.pathname "/api/" = true →
      classify req = some .API ∧
      fetchDispatch req = some (.networkFirst, DYNAMIC_CACHE)) ∧
    (req.method = "GET" → startsWithStr req.pathname "/api/" = false →
      req.destination = "image" →
      classify req = some .Image ∧
      fetchDispatch req = some (.cacheFirst, IMAGE_CACHE)) ∧
    (req.method = "GET" → startsWithStr req.pathname "/api/" = false →
      req.destination ≠ "image" → staticSuffix req.pathname = true →
      classify req = some .StaticAsset ∧
      fetchDispatch req = some (.cacheFirst, STATIC_CACHE)) ∧
    (req.method = "GET" → startsWithStr req.pathname "/api/" = false →
      req.destination ≠ "image" → staticSuffix req.pathname = false →
      classify req = some .Document ∧
      fetchDispatch req = some (.networkFirst, CACHE_NAME)) := by
  refine ⟨?_, ?_, ?_, ?_, ?_, ?_⟩
  · intro hm
    constructor <;> simp [classify, fetchDispatch, hm]
  · intro hm
    simp only [classify]
    split_ifs <;> simp_all
  · intro hm hapi
    constructor <;> simp [classify, fetchDispatch, hm, hapi]
  · intro hm hapi hi
    constructor <;> simp [classify, fetchDispatch, hm, hapi, hi]
  · intro hm hapi hi hs
    constructor <;> simp [classify, fetchDispatch, hm, hapi, hi, hs]
  · intro hm hapi hi hs
    constructor <;> simp [classify, fetchDispatch, hm, hapi, hi, hs]

/-- Witness for C5: an API-prefixed path whose suffix also matches the
static-asset test classifies as API. -/
theorem classify_total_priority_witness :
    classify reqApiJs = some .API ∧
    fetchDispatch reqApiJs = some (.networkFirst, DYNAMIC_CACHE) ∧
    staticSuffix reqApiJs.pathname = true :=
  ⟨((classify_total_priority reqApiJs).2.2.1 rfl (by decide)).1,
   ((classify_total_priority reqApiJs).2.2.1 rfl (by decide)).2,
   by decide⟩

/-- C6: for a request the fetch listener dispatches to Cache-First
(Image or StaticAsset class) with an existing cache entry, the strategy
returns the cached entry unchanged with the storage untouched, for every
network outcome alike (so the caller never waits on any network call);
a background refetch is issued exactly when the entry fails the one-hour
freshness test, and its completion overwrites the entry on an ok
response while a rejection or a non-ok response is discarded with the
storage unchanged. -/
theorem cf_hit_returns_cached_nonblocking (st : CacheStorage) (req : Request)
    (cn : String) (now : Int) (dp : String → Option Int) (c : Response)
    (hdisp : fetchDispatch req = some (.cacheFirst, cn))
    (hc : matchAll st req.url = some c) :
    (∀ net : FetchOutcome,
      cacheFirstStrategy st req cn now dp net =
        { state := st, result := .resp c,
          background := isStale c now dp }) ∧
    (∀ r : Response, r.ok = true →
      matchIn (backgroundUpdate st req cn (.success r)) cn req.url = some r) ∧
    (backgroundUpdate st req cn .failure = st) ∧
    (∀ r : Response, r.ok = false →
      backgroundUpdate st req cn (.success r) = st) := by
  refine ⟨?_, ?_, ?_, ?_⟩
  · intro net
    simp [cacheFirstStrategy, hc]
  · intro r hok
    simp only [backgroundUpdate, hok, if_pos]
    exact matchIn_putEntry_self _ cn req.url r (mem_cacheKeys_opencache st cn)
  · rfl
  · intro r hok
    simp [backgroundUpdate, hok]

/-- Witness for C6 at a concrete image request with a cache hit. -/
theorem cf_hit_returns_cached_nonblocking_witness :
    cacheFirstStrategy stImgNoDate reqImg IMAGE_CACHE 0 (fun _ => none)
      .failure =
      { state := stImgNoDate, result := .resp okResp,
        background := isStale okResp 0 (fun _ => none) } :=
  (cf_hit_returns_cached_nonblocking stImgNoDate reqImg IMAGE_CACHE 0
    (fun _ => none) okResp (by decide) (by rfl)).1 .failure

/-- C8: the push handler always renders; a payload whose structured
parse fails contributes only its raw text as the body, the title, icon,
badge and target url keeping their defaults, and an absent payload
renders the defaults unchanged. -/
theorem push_malformed_payload_defaults (s : String) :
    pushHandler (.textData s) =
      ("Amino Gym",
        { body := s, icon := "/yacin-gym-logo.png",
          badge := "/yacin-gym-logo.png", url := "/" }) ∧
    pushHandler .noData =
      ("Amino Gym",
        { body := "إشعار من Amino Gym", icon := "/yacin-gym-logo.png",
          badge := "/yacin-gym-logo.png", url := "/" }) := by
  constructor <;> rfl

/-- C2 counterexample: activation only deletes, it never creates, so on
a storage holding just the primary namespace and one stale namespace the
result is the primary namespace alone — not the four current-version
namespaces the claim requires: the static namespace is on the allow-list
yet absent afterwards. -/
theorem activate_not_all_four_counterexample :
    activateHandler stOldCaches = [(CACHE_NAME, [])] ∧
    STATIC_CACHE ∈ allowList ∧
    STATIC_CACHE ∉ cacheKeys (activateHandler stOldCaches) ∧
    "amino-gym-v1" ∉ cacheKeys (activateHandler stOldCaches) := by
  refine ⟨by decide, by decide, by decide, by decide⟩

/-- C2 (amended): after the activate cleanup the existing namespaces are
exactly those that existed before and lie on the four-namespace
allow-list — every pre-existing namespace outside the allow-list is
deleted, no namespace outside it remains, and activation creates none,
so an allow-listed namespace absent beforehand stays absent. -/
theorem activate_namespaces (st : CacheStorage) (name : String) :
    name ∈ cacheKeys (activateHandler st) ↔
      (name ∈ cacheKeys st ∧ name ∈ allowList) := by
  rw [activate_eq_filter]
  simp only [cacheKeys, List.mem_map]
  constructor
  · rintro ⟨c, hcf, rfl⟩
    rw [List.mem_filter] at hcf
    exact ⟨⟨c, hcf.1, rfl⟩, by simpa using hcf.2⟩
  · rintro ⟨⟨c, hcm, rfl⟩, hal⟩
    exact ⟨c, List.mem_filter.mpr ⟨hcm, by simpa using hal⟩, rfl⟩

/-- C7: from a storage in which the document and static namespaces do
not yet exist, an install against a fetch environment in which every
manifest resource yields an ok response succeeds and populates the
document namespace with exactly the critical-resource keys and the
static namespace with exactly the static-asset keys; and the batch add
is all-or-nothing per namespace: a failing critical resource leaves the
document namespace without a single entry and fails the install, and a
failing static asset likewise for the static namespace. -/
theorem install_precache_exact (st : CacheStorage) (f : String → FetchOutcome)
    (h1 : CACHE_NAME ∉ cacheKeys st) (h2 : STATIC_CACHE ∉ cacheKeys st) :
    ((∀ u ∈ CRITICAL_RESOURCES ++ STATIC_ASSETS, (f u).isOkResp = true) →
      (installHandler st f).2 = true ∧
      (∀ k, ((matchIn (installHandler st f).1 CACHE_NAME k).isSome = true ↔
        k ∈ CRITICAL_RESOURCES)) ∧
      (∀ k, ((matchIn (installHandler st f).1 STATIC_CACHE k).isSome = true ↔
        k ∈ STATIC_ASSETS))) ∧
    ((∃ u ∈ CRITICAL_RESOURCES, (f u).isOkResp = false) →
      (installHandler st f).2 = false ∧
      (∀ k, matchIn (installHandler st f).1 CACHE_NAME k = none)) ∧
    ((∃ u ∈ STATIC_ASSETS, (f u).isOkResp = false) →
      (installHandler st f).2 = false ∧
      (∀ k, matchIn (installHandler st f).1 STATIC_CACHE k = none)) := by
  have hne21 : CACHE_NAME ≠ STATIC_CACHE := by decide
  have hne12 : STATIC_CACHE ≠ CACHE_NAME := by decide
  have hkeys1 : cacheKeys (addAllStep st CACHE_NAME CRITICAL_RESOURCES f).1
      = cacheKeys st ++ [CACHE_NAME] := by
    rw [cacheKeys_addAllStep, opencache_eq, if_neg h1]
    simp [cacheKeys]
  have hst2 : STATIC_CACHE ∉
      cacheKeys (addAllStep st CACHE_NAME CRITICAL_RESOURCES f).1 := by
    rw [hkeys1]
    simp [List.mem_append, h2, hne12]
  refine ⟨?_, ?_, ?_⟩
  · intro hok
    have hall1 : CRITICAL_RESOURCES.all (fun u => (f u).isOkResp) = true := by
      rw [List.all_eq_true]
      intro u hu
      exact hok u (List.mem_append_left _ hu)
    have hall2 : STATIC_ASSETS.all (fun u => (f u).isOkResp) = true := by
      rw [List.all_eq_true]
      intro u hu
      exact hok u (List.mem_append_right _ hu)
    have hp1 : addAllStep st CACHE_NAME CRITICAL_RESOURCES f
        = (putAll (opencache st CACHE_NAME) CACHE_NAME CRITICAL_RESOURCES f,
           true) := by
      unfold addAllStep
      rw [if_pos hall1]
    have hp2 : addAllStep (addAllStep st CACHE_NAME CRITICAL_RESOURCES f).1
          STATIC_CACHE STATIC_ASSETS f
        = (putAll (opencache (addAllStep st CACHE_NAME CRITICAL_RESOURCES f).1
            STATIC_CACHE) STATIC_CACHE STATIC_ASSETS f, true) := by
      unfold addAllStep
      rw [if_pos hall2]
    refine ⟨?_, ?_, ?_⟩
    · show ((addAllStep st CACHE_NAME CRITICAL_RESOURCES f).2 &&
        (addAllStep (addAllStep st CACHE_NAME CRITICAL_RESOURCES f).1
          STATIC_CACHE STATIC_ASSETS f).2) = true
      rw [hp2, hp1]
      rfl
    · intro k
      have step2 : matchIn (installHandler st f).1 CACHE_NAME k
          = matchIn (addAllStep st CACHE_NAME CRITICAL_RESOURCES f).1
              CACHE_NAME k :=
        matchIn_addAllStep_ne _ STATIC_CACHE CACHE_NAME STATIC_ASSETS k f hne21
      rw [step2, hp1]
      rw [matchIn_putAll_isSome CRITICAL_RESOURCES (opencache st CACHE_NAME)
        CACHE_NAME k f (List.all_eq_true.mp hall1)
        (mem_cacheKeys_opencache st CACHE_NAME)]
      rw [matchIn_opencache_absent st CACHE_NAME k h1]
      simp
    · intro k
      show (matchIn (addAllStep (addAllStep st CACHE_NAME CRITICAL_RESOURCES
        f).1 STATIC_CACHE STATIC_ASSETS f).1 STATIC_CACHE k).isSome = true ↔
        k ∈ STATIC_ASSETS
      rw [hp2]
      rw [matchIn_putAll_isSome STATIC_ASSETS _ STATIC_CACHE k f
        (List.all_eq_true.mp hall2) (mem_cacheKeys_opencache _ STATIC_CACHE)]
      rw [matchIn_opencache_absent _ STATIC_CACHE k hst2]
      simp
  · rintro ⟨u, hu, hfu⟩
    have hall1 : ¬(CRITICAL_RESOURCES.all (fun u => (f u).isOkResp) = true) := by
      intro hcon
      have := List.all_eq_true.mp hcon u hu
      rw [hfu] at this
      exact Bool.false_ne_true this
    have hp1 : addAllStep st CACHE_NAME CRITICAL_RESOURCES f
        = (opencache st CACHE_NAME, false) := by
      unfold addAllStep
      rw [if_neg hall1]
    constructor
    · show ((addAllStep st CACHE_NAME CRITICAL_RESOURCES f).2 &&
        (addAllStep (addAllStep st CACHE_NAME CRITICAL_RESOURCES f).1
          STATIC_CACHE STATIC_ASSETS f).2) = false
      rw [hp1]
      simp
    · intro k
      have step2 : matchIn (installHandler st f).1 CACHE_NAME k
          = matchIn (addAllStep st CACHE_NAME CRITICAL_RESOURCES f).1
              CACHE_NAME k :=
        matchIn_addAllStep_ne _ STATIC_CACHE CACHE_NAME STATIC_ASSETS k f hne21
      rw [step2, hp1]
      exact matchIn_opencache_absent st CACHE_NAME k h1
  · rintro ⟨u, hu, hfu⟩
    have hall2 : ¬(STATIC_ASSETS.all (fun u => (f u).isOkResp) = true) := by
      intro hcon
      have := List.all_eq_true.mp hcon u hu
      rw [hfu] at this
      exact Bool.false_ne_true this
    have hp2 : addAllStep (addAllStep st CACHE_NAME CRITICAL_RESOURCES f).1
          STATIC_CACHE STATIC_ASSETS f
        = (opencache (addAllStep st CACHE_NAME CRITICAL_RESOURCES f).1
            STATIC_CACHE, false) := by
      unfold addAllStep
      rw [if_neg hall2]
    constructor
    · show ((addAllStep st CACHE_NAME CRITICAL_RESOURCES f).2 &&
        (addAllStep (addAllStep st CACHE_NAME CRITICAL_RESOURCES f).1
          STATIC_CACHE STATIC_ASSETS f).2) = false
      rw [hp2]
      simp
    · intro k
      show matchIn (addAllStep (addAllStep st CACHE_NAME CRITICAL_RESOURCES
        f).1 STATIC_CACHE STATIC_ASSETS f).1 STATIC_CACHE k = none
      rw [hp2]
      exact matchIn_opencache_absent _ STATIC_CACHE k hst2

/-- Witness for C7: on an empty storage the all-ok environment installs
successfully, and an environment whose logo fetch rejects fails the
whole install. -/
theorem install_precache_exact_witness :
    (installHandler [] allOkFetch).2 = true ∧
    (installHandler [] logoFailFetch).2 = false := by
  constructor
  · exact ((install_precache_exact [] allOkFetch (by simp [cacheKeys])
      (by simp [cacheKeys])).1 (fun u _ => rfl)).1
  · exact ((install_precache_exact [] logoFailFetch (by simp [cacheKeys])
      (by simp [cacheKeys])).2.1
      ⟨"/yacin-gym-logo.png", by decide, by decide⟩).1

end SW
